import Mathlib

/-!
Verification of the Mail Ingestion & Synchronization Engine.

The repository ships the relational schema (`users`, `temp_aliases`,
`emails` with `UNIQUE(user_id, message_id)` and the `idx_rate_limit`
index) as SQL source; the engine around it is embedded here following the
schema and the documented component contracts (alias registry, SMTP
listener, credential store, sync engine, rate guard).  Timestamps are
modelled as natural numbers, SQL NULL as `Option`.
-/

namespace MailServer

/-- Row of the `emails` table: `id BIGSERIAL, user_id TEXT NOT NULL,
message_id TEXT, sender TEXT NOT NULL, subject TEXT, body_preview TEXT,
received_at TIMESTAMP NOT NULL`.  `message_id` is nullable, hence
`Option String`. -/
structure EmailRow where
  id : Nat
  userId : String
  messageId : Option String
  sender : String
  subject : String
  bodyPreview : String
  receivedAt : Nat
deriving DecidableEq

/-- Row of the `temp_aliases` table: `alias TEXT PRIMARY KEY, user_id TEXT
NOT NULL REFERENCES users(id) ON DELETE CASCADE, created_at TIMESTAMP`. -/
structure TempAliasRow where
  aliasAddr : String
  userId : String
  createdAt : Nat
deriving DecidableEq

/-- Row of the `users` table: identity plus the optional IMAP credentials
and the optional OAuth credentials. -/
structure UserRow where
  id : String
  email : String
  imapServer : Option String
  imapPort : Int
  imapPassword : Option String
  authProvider : Option String
  accessToken : Option String
  refreshToken : Option String
  tokenExpiresAt : Option Nat
deriving DecidableEq

/-- The relational store: the three tables of the schema. -/
structure Db where
  users : List UserRow
  tempAliases : List TempAliasRow
  emails : List EmailRow
deriving DecidableEq

/-- Referential action attached to a foreign key. -/
inductive RefAction
  | cascade
  | noAction
deriving DecidableEq

/-- The `temp_aliases.user_id` foreign key carries `ON DELETE CASCADE` in
the schema. -/
def tempAliasesUserFk : RefAction := RefAction.cascade

/-- The `emails.user_id` foreign key is written `REFERENCES users(id)` with
no `ON DELETE` clause, so it gets the SQL default `NO ACTION`. -/
def emailsUserFk : RefAction := RefAction.noAction

/-- Conflict test for `UNIQUE(user_id, message_id)`.  PostgreSQL treats NULLs
as distinct in a unique constraint, so a row whose `message_id` is NULL
never conflicts: the `isSome` conjunct reflects that. -/
def emailsConflict (rows : List EmailRow) (e : EmailRow) : Bool :=
  rows.any (fun r => r.userId == e.userId && r.messageId == e.messageId
    && e.messageId.isSome)

/-- Insert into `emails` with conflict-ignore semantics on the uniqueness
key (insert, do nothing on conflict). -/
def insertEmail (rows : List EmailRow) (e : EmailRow) : List EmailRow :=
  if emailsConflict rows e then rows else rows ++ [e]

/-- Semantics of `DELETE FROM users WHERE id = uid` under the referential actions the
schema declares: `temp_aliases` cascades, while `emails` has `NO ACTION`,
so the delete is rejected whenever the user still owns an email row. -/
def deleteUser (db : Db) (uid : String) : Except String Db :=
  if db.emails.any (fun e => e.userId == uid) &&
      (emailsUserFk == RefAction.noAction) then
    Except.error "delete on users violates foreign key constraint of emails"
  else
    Except.ok
      { users := db.users.filter (fun u => u.id != uid)
        tempAliases :=
          if tempAliasesUserFk == RefAction.cascade then
            db.tempAliases.filter (fun a => a.userId != uid)
          else db.tempAliases
        emails := db.emails }

/-- Modelled from the spec: Alias Registry `resolve(alias)` — look the
disposable address up in `temp_aliases` and return the owning user id, or
nothing when the alias is unknown. -/
def resolveAlias (db : Db) (a : String) : Option String :=
  (db.tempAliases.find? (fun r => r.aliasAddr == a)).map (fun r => r.userId)

/-- Modelled from the spec: Alias Registry `create(userId)` — a user that
already owns an alias has the prior one atomically retired (it stops
routing) while already-ingested mail is untouched; the fresh alias is the
single active one afterwards. -/
def createAlias (db : Db) (uid : String) (newAlias : String) (now : Nat) :
    Db :=
  { db with tempAliases :=
      db.tempAliases.filter (fun r => r.userId != uid) ++
        [{ aliasAddr := newAlias, userId := uid, createdAt := now }] }

/-- Modelled from the spec: Alias Registry `delete(userId)` — remove the
binding; idempotent. -/
def deleteAlias (db : Db) (uid : String) : Db :=
  { db with tempAliases := db.tempAliases.filter (fun r => r.userId != uid) }

/-- Rate Guard configuration: message ceiling and trailing window length. -/
structure RateCfg where
  limit : Nat
  windowLen : Nat
deriving DecidableEq

/-- Count of the email rows of a user whose `received_at` lies in the
trailing window `(now - win, now]` — the query backed by the
`idx_rate_limit` index on `(user_id, received_at DESC)`. -/
def countRecent (rows : List EmailRow) (uid : String) (now win : Nat) :
    Nat :=
  (rows.filter (fun r => r.userId == uid && now - win < r.receivedAt
    && r.receivedAt ≤ now)).length

/-- Modelled from the spec: Rate Guard admission — counts email rows for
the user within the trailing window and denies once the configured ceiling
is reached.  Consulted only by the Listener. -/
def rateCheck (db : Db) (cfg : RateCfg) (now : Nat) (uid : String) :
    Bool :=
  countRecent db.emails uid now cfg.windowLen < cfg.limit

/-- An inbound message as the Listener sees it after DATA: raw sender,
parsed headers, body, and the source message identifier when the headers
carry one. -/
structure InboundMsg where
  sender : String
  subject : String
  body : String
  sourceMessageId : Option String
deriving DecidableEq

/-- Bound on the stored body preview. -/
def previewLen : Nat := 200

/-- Modelled from the spec: when the source offers no discoverable message
identifier, one is synthesized deterministically from the content and the
receipt time, so that exact retransmissions still deduplicate. -/
def synthesizeId (m : InboundMsg) (now : Nat) : String :=
  m.sender ++ "|" ++ m.subject ++ "|" ++ m.body ++ "|" ++ toString now

/-- Normalization of an inbound message into an `emails` row: missing
subject defaults to "(No Subject)", the preview is the body truncated to
`previewLen`, and the message identifier is the source one or the
synthesized fallback — so the stored identifier is never NULL on this
path. -/
def normalizeInbound (m : InboundMsg) (uid : String) (now : Nat)
    (nextId : Nat) : EmailRow :=
  { id := nextId
    userId := uid
    messageId := some (m.sourceMessageId.getD (synthesizeId m now))
    sender := m.sender
    subject := if m.subject == "" then "(No Subject)" else m.subject
    bodyPreview := m.body.take previewLen
    receivedAt := now }

/-- Listener response classes: success (2xx), permanent failure (5xx,
unknown recipient), temporary failure (4xx, rate exceeded — retry
later). -/
inductive DeliverOutcome
  | stored
  | permanentFailure
  | temporaryFailure
deriving DecidableEq

/-- Modelled from the spec: the Listener RCPT/DATA path for one message —
resolve the recipient alias (unknown alias is a permanent rejection and
nothing is written), consult the Rate Guard for the owning user (over
limit is a temporary rejection and nothing is written), otherwise insert
the normalized row, a conflict on the uniqueness key counting as
success. -/
def deliver (db : Db) (cfg : RateCfg) (now : Nat) (rcpt : String)
    (m : InboundMsg) : Db × DeliverOutcome :=
  match resolveAlias db rcpt with
  | none => (db, DeliverOutcome.permanentFailure)
  | some uid =>
    if rateCheck db cfg now uid then
      ({ db with
          emails :=
            insertEmail db.emails
              (normalizeInbound m uid now (db.emails.length + 1)) },
        DeliverOutcome.stored)
    else
      (db, DeliverOutcome.temporaryFailure)

/-- Capability-tagged credential view from the Credential and Token
Store: OAuth tokens with expiry, IMAP coordinates, or no credential. -/
inductive CredentialView
  | oauth (provider accessToken refreshToken : String) (expiresAt : Nat)
  | imap (server : String) (port : Nat) (password : String)
  | noCred
deriving DecidableEq

/-- A successful token-refresh exchange: the new access token and its
expiry as returned by the provider endpoint. -/
structure RefreshGrant where
  accessToken : String
  expiresAt : Nat
deriving DecidableEq

/-- Sync-level error taxonomy relevant to the credential path. -/
inductive SyncError
  | credentialExpired
  | noCredential
deriving DecidableEq

/-- Safety margin before expiry at which a refresh is already forced. -/
def refreshMargin : Nat := 60

/-- Modelled from the spec: `ensureFresh(userId)` — for the OAuth variant,
if `expiresAt` is at or before the current time plus a small safety
margin, perform one refresh exchange (the provider outcome is the `grant`
argument: `some` on success, `none` when the provider rejects the
refresh) and persist the new access token and expiry; a rejected refresh
is `CredentialExpired`.  The result carries the credential to use and the
number of refresh exchanges performed. -/
def ensureFresh (cred : CredentialView) (now : Nat)
    (grant : Option RefreshGrant) :
    Except SyncError (CredentialView × Nat) :=
  match cred with
  | CredentialView.oauth p _ r exp =>
    if exp ≤ now + refreshMargin then
      match grant with
      | some g =>
        Except.ok (CredentialView.oauth p g.accessToken r g.expiresAt, 1)
      | none => Except.error SyncError.credentialExpired
    else
      Except.ok (cred, 0)
  | CredentialView.imap _ _ _ => Except.ok (cred, 0)
  | CredentialView.noCred => Except.error SyncError.noCredential

/-- A message summary as listed by the remote source (provider API or
IMAP mailbox listing). -/
structure RemoteMsg where
  messageId : String
  sender : String
  subject : String
  body : String
  receivedAt : Nat
deriving DecidableEq

/-- Bounded default lookback applied when the user has no stored mail. -/
def defaultLookback : Nat := 604800

/-- Modelled from the spec: the fetch watermark — the latest `received_at`
already stored for the user (the query behind the `idx_rate_limit`
index), or `now` minus the bounded default lookback when the user has no
stored mail. -/
def watermark (rows : List EmailRow) (uid : String) (now : Nat) : Nat :=
  match rows.filter (fun r => r.userId == uid) with
  | [] => now - defaultLookback
  | r :: rs => (r :: rs).foldl (fun acc x => max acc x.receivedAt) 0

/-- Modelled from the spec: the remote listing restricted to candidates
strictly newer than the watermark. -/
def fetchNewer (remote : List RemoteMsg) (wm : Nat) : List RemoteMsg :=
  remote.filter (fun m => wm < m.receivedAt)

/-- Normalization of a remote candidate into an `emails` row. -/
def normalizeRemote (m : RemoteMsg) (uid : String) (nextId : Nat) :
    EmailRow :=
  { id := nextId
    userId := uid
    messageId := some m.messageId
    sender := m.sender
    subject := m.subject
    bodyPreview := m.body.take previewLen
    receivedAt := m.receivedAt }

/-- Insert each candidate through the conflict-ignoring primitive;
candidates whose uniqueness key already exists are silently skipped. -/
def insertAll (rows : List EmailRow) (uid : String)
    (msgs : List RemoteMsg) : List EmailRow :=
  msgs.foldl
    (fun acc m => insertEmail acc (normalizeRemote m uid (acc.length + 1)))
    rows

/-- Modelled from the spec: the body of `sync(userId)` once the
single-flight slot is held — resolve the credential through `ensureFresh`
(a failure aborts with no write), compute the watermark, fetch the
candidates newer than it, insert them with conflicts skipped.  Returns
the new store, the persisted credential and the refresh-exchange
count. -/
def syncRun (db : Db) (cred : CredentialView) (grant : Option RefreshGrant)
    (remote : List RemoteMsg) (uid : String) (now : Nat) :
    Except SyncError (Db × CredentialView × Nat) :=
  match ensureFresh cred now grant with
  | Except.error e => Except.error e
  | Except.ok (cred2, rc) =>
    Except.ok
      ({ db with
          emails :=
            insertAll db.emails uid
              (fetchNewer remote (watermark db.emails uid now)) },
        cred2, rc)

/-- The store a caller observes after a sync call: the updated store on
success, the untouched store on an aborted sync. -/
def dbAfterSync (db : Db) (cred : CredentialView)
    (grant : Option RefreshGrant) (remote : List RemoteMsg) (uid : String)
    (now : Nat) : Db :=
  match syncRun db cred grant remote uid now with
  | Except.ok (db2, _, _) => db2
  | Except.error _ => db

/-- Modelled from the spec: the per-user sync slot driven by the
single-flight guard — the store, whether a sync is in flight, and how
many remote fetches have been issued. -/
structure Engine where
  db : Db
  running : Bool
  fetches : Nat
deriving DecidableEq

/-- Modelled from the spec: a sync call arriving at the slot.  If a sync
is already running the caller joins the in-flight result: no state
change, no remote fetch.  Otherwise the caller takes the slot. -/
def arrive (e : Engine) : Engine :=
  if e.running then e else { e with running := true }

/-- Iterated arrival: `k` further calls arriving while the slot is held. -/
def arriveN (k : Nat) (e : Engine) : Engine :=
  match k with
  | 0 => e
  | Nat.succ k2 => arriveN k2 (arrive e)

/-- Modelled from the spec: the in-flight sync completing — it issued the
one remote fetch, writes its result to the store and releases the
slot. -/
def complete (e : Engine) (cred : CredentialView)
    (grant : Option RefreshGrant) (remote : List RemoteMsg) (uid : String)
    (now : Nat) : Engine :=
  if e.running then
    { db := dbAfterSync e.db cred grant remote uid now
      running := false
      fetches := e.fetches + 1 }
  else e

/-- The emails of one user, as `list-emails(userId)` reads them. -/
def listEmails (db : Db) (uid : String) : List EmailRow :=
  db.emails.filter (fun r => r.userId == uid)

section Fixtures

/-- A user with no credentials, shared by the concrete scenarios. -/
def uA : UserRow :=
  ⟨"u1", "real@example.com", none, 993, none, none, none, none, none⟩

/-- A store holding only the user, no aliases, no mail. -/
def dbEmpty : Db := ⟨[uA], [], []⟩

/-- An inbound message that carries a source message identifier. -/
def msgA : InboundMsg :=
  ⟨"sender@example.com", "hello", "body text", some "mid-1"⟩

/-- A small rate-guard configuration: ceiling 2 inside a window of 50. -/
def cfgA : RateCfg := ⟨2, 50⟩

/-- A store where the user owns one alias and one email row. -/
def dbOwned : Db :=
  ⟨[uA], [⟨"a1", "u1", 5⟩], [⟨1, "u1", some "m1", "s", "sub", "p", 6⟩]⟩

/-- A store where the user owns one alias and no email row. -/
def dbAliasOnly : Db := ⟨[uA], [⟨"a1", "u1", 5⟩], []⟩

end Fixtures

/-- A row whose `message_id` is NULL never trips the uniqueness check, so
the conflict-ignoring insert always appends it. -/
theorem insertEmail_none_id (rows : List EmailRow) (e : EmailRow)
    (h : e.messageId = none) : insertEmail rows e = rows ++ [e] := by
  simp [insertEmail, emailsConflict, h]

/-- C10: the storage layer admits arbitrarily many Email rows for one user
whose source message identifier is absent — `UNIQUE(user_id, message_id)`
does not constrain NULL `message_id`, so inserting the very same NULL-id
row `n` times grows the table by `n`. -/
theorem null_message_id_rows_unconstrained (rows : List EmailRow) (n : Nat)
    (e : EmailRow) (h : e.messageId = none) :
    ((List.replicate n e).foldl insertEmail rows).length =
      rows.length + n := by
  induction n generalizing rows with
  | zero => simp
  | succ k ih =>
    rw [List.replicate_succ, List.foldl_cons, insertEmail_none_id rows e h,
      ih]
    simp
    omega

/-- C10 witness: three inserts of one NULL-id row leave three rows. -/
theorem null_message_id_rows_unconstrained_witness :
    ((List.replicate 3
        (⟨1, "u1", none, "s", "sub", "p", 6⟩ : EmailRow)).foldl
      insertEmail ([] : List EmailRow)).length =
      List.length ([] : List EmailRow) + 3 :=
  null_message_id_rows_unconstrained []
    3 (⟨1, "u1", none, "s", "sub", "p", 6⟩ : EmailRow) rfl

/-- C9 counterexample: in the schema only `temp_aliases` carries
`ON DELETE CASCADE`; the `emails.user_id` foreign key has no referential
action, so deleting user `u1`, who owns an alias and an email row, is
rejected outright — the email row is not removed by any cascade. -/
theorem delete_user_email_cascade_fails :
    deleteUser dbOwned "u1" =
      Except.error
        "delete on users violates foreign key constraint of emails" ∧
    emailsUserFk = RefAction.noAction ∧
    dbOwned.emails ≠ [] := by
  refine ⟨rfl, rfl, by decide⟩

/-- C9 (amended): TempAlias rows cannot outlive their user — deleting a
user with no Email rows succeeds and cascades away all aliases of that
user; but the `emails` foreign key has the default NO ACTION, so
deleting a user that still owns Email rows is rejected by the store and
removes nothing. -/
theorem delete_user_fk_actions (db : Db) (uid : String) :
    (db.emails.any (fun e => e.userId == uid) = false →
      deleteUser db uid =
        Except.ok
          { users := db.users.filter (fun u => u.id != uid)
            tempAliases := db.tempAliases.filter (fun a => a.userId != uid)
            emails := db.emails }) ∧
    (db.emails.any (fun e => e.userId == uid) = true →
      deleteUser db uid =
        Except.error
          "delete on users violates foreign key constraint of emails") := by
  constructor
  · intro h
    simp [deleteUser, h, tempAliasesUserFk]
  · intro h
    simp [deleteUser, h, emailsUserFk]

/-- C9 amended witness: both branches at concrete stores — a user without
mail is deleted with the alias cascaded, a user with mail is refused. -/
theorem delete_user_fk_actions_witness :
    (deleteUser dbAliasOnly "u1" =
      Except.ok
        { users := dbAliasOnly.users.filter (fun u => u.id != "u1")
          tempAliases :=
            dbAliasOnly.tempAliases.filter (fun a => a.userId != "u1")
          emails := dbAliasOnly.emails }) ∧
    deleteUser dbOwned "u1" =
      Except.error
        "delete on users violates foreign key constraint of emails" :=
  ⟨(delete_user_fk_actions dbAliasOnly "u1").1 (by decide),
   (delete_user_fk_actions dbOwned "u1").2 (by decide)⟩

/-- C2: an address that resolves to no active alias is rejected with a
permanent failure and the store — in particular the `emails` table — is
left exactly as it was. -/
theorem unknown_alias_rejected (db : Db) (cfg : RateCfg) (now : Nat)
    (rcpt : String) (m : InboundMsg)
    (h : resolveAlias db rcpt = none) :
    deliver db cfg now rcpt m = (db, DeliverOutcome.permanentFailure) := by
  simp [deliver, h]

/-- C2 witness: delivery to the never-created alias a1 of the empty store
is rejected and writes nothing. -/
theorem unknown_alias_rejected_witness :
    resolveAlias dbEmpty "a1" = none ∧
    deliver dbEmpty cfgA 100 "a1" msgA =
      (dbEmpty, DeliverOutcome.permanentFailure) :=
  ⟨rfl, unknown_alias_rejected dbEmpty cfgA 100 "a1" msgA rfl⟩

/-- C1: delivering a fresh message carrying a source identifier to an
active alias stores exactly one new Email row, and delivering the
byte-identical message a second time (at any later receipt time within
the rate ceiling) stores no additional row and still answers success —
insertion is idempotent on the deduplication key. -/
theorem delivery_idempotent (db : Db) (cfg : RateCfg) (now1 now2 : Nat)
    (rcpt uid : String) (m : InboundMsg)
    (hres : resolveAlias db rcpt = some uid)
    (hid : m.sourceMessageId.isSome = true)
    (hfresh : ∀ r ∈ db.emails, r.userId = uid →
      r.messageId ≠ m.sourceMessageId)
    (hrate1 : rateCheck db cfg now1 uid = true)
    (hrate2 : rateCheck (deliver db cfg now1 rcpt m).1 cfg now2 uid
      = true) :
    (deliver db cfg now1 rcpt m).2 = DeliverOutcome.stored ∧
    ((deliver db cfg now1 rcpt m).1).emails.length
      = db.emails.length + 1 ∧
    deliver (deliver db cfg now1 rcpt m).1 cfg now2 rcpt m =
      ((deliver db cfg now1 rcpt m).1, DeliverOutcome.stored) := by
  obtain ⟨v, hv⟩ : ∃ v, m.sourceMessageId = some v :=
    Option.isSome_iff_exists.mp hid
  have hconf1 :
      emailsConflict db.emails
        (normalizeInbound m uid now1 (db.emails.length + 1)) = false := by
    simp only [emailsConflict, normalizeInbound, hv, Option.getD_some,
      Option.isSome_some, Bool.and_true, List.any_eq_false,
      Bool.and_eq_true, beq_iff_eq, not_and]
    intro r hr hru
    have := hfresh r hr hru
    rw [hv] at this
    simp [this]
  have h1 : deliver db cfg now1 rcpt m =
      ({ db with
          emails := db.emails ++
            [normalizeInbound m uid now1 (db.emails.length + 1)] },
        DeliverOutcome.stored) := by
    simp [deliver, hres, hrate1, insertEmail, hconf1]
  rw [h1] at hrate2 ⊢
  refine ⟨rfl, by simp, ?_⟩
  have hres2 : resolveAlias
      { db with
          emails := db.emails ++
            [normalizeInbound m uid now1 (db.emails.length + 1)] } rcpt
      = some uid := hres
  have hconf2 : ∀ k,
      emailsConflict
        (db.emails ++ [normalizeInbound m uid now1 (db.emails.length + 1)])
        (normalizeInbound m uid now2 k) = true := by
    intro k
    simp [emailsConflict, normalizeInbound, hv]
  simp [deliver, hres2, hrate2, insertEmail, hconf2]

/-- C1 witness: with the alias a1 registered for u1, the same message is
delivered at times 100 and 120; the first stores one row, the second is
absorbed as a duplicate. -/
theorem delivery_idempotent_witness :
    (deliver dbAliasOnly cfgA 100 "a1" msgA).2 = DeliverOutcome.stored ∧
    ((deliver dbAliasOnly cfgA 100 "a1" msgA).1).emails.length
      = dbAliasOnly.emails.length + 1 ∧
    deliver (deliver dbAliasOnly cfgA 100 "a1" msgA).1 cfgA 120 "a1" msgA =
      ((deliver dbAliasOnly cfgA 100 "a1" msgA).1,
        DeliverOutcome.stored) :=
  delivery_idempotent dbAliasOnly cfgA 100 120 "a1" "u1" msgA
    (by decide) (by decide) (by decide) (by decide) (by decide)

/-- Delivery never touches the alias table. -/
theorem tempAliases_deliver (db : Db) (cfg : RateCfg) (now : Nat)
    (rcpt : String) (m : InboundMsg) :
    ((deliver db cfg now rcpt m).1).tempAliases = db.tempAliases := by
  unfold deliver
  cases h : resolveAlias db rcpt with
  | none => rfl
  | some uid =>
    by_cases hr : rateCheck db cfg now uid <;> simp [hr]

/-- Alias creation never touches the email table. -/
theorem emails_createAlias (db : Db) (u a : String) (t : Nat) :
    (createAlias db u a t).emails = db.emails := rfl

/-- A freshly created alias resolves to its owner, provided the address
was not already bound. -/
theorem resolveAlias_createAlias_self (db : Db) (u a : String) (t : Nat)
    (h : ∀ r ∈ db.tempAliases, r.aliasAddr ≠ a) :
    resolveAlias (createAlias db u a t) a = some u := by
  have hnone : (db.tempAliases.filter
      (fun r => r.userId != u)).find? (fun r => r.aliasAddr == a)
      = none := by
    rw [List.find?_eq_none]
    intro r hr
    have := h r (List.mem_of_mem_filter hr)
    simp [this]
  simp [resolveAlias, createAlias, List.find?_append, hnone]

/-- After a replacement, the previous address of the owner no longer
resolves: the filter retired every alias of the owner, and no other user
holds that address. -/
theorem resolveAlias_createAlias_old (db : Db) (u a2 a1 : String) (t : Nat)
    (hne : a1 ≠ a2)
    (h : ∀ r ∈ db.tempAliases, r.userId ≠ u → r.aliasAddr ≠ a1) :
    resolveAlias (createAlias db u a2 t) a1 = none := by
  have hnone : (db.tempAliases.filter
      (fun r => r.userId != u)).find? (fun r => r.aliasAddr == a1)
      = none := by
    rw [List.find?_eq_none]
    intro r hr
    have hm := List.mem_of_mem_filter hr
    have hu : r.userId ≠ u := by
      have := List.of_mem_filter hr
      simpa using this
    have := h r hm hu
    simp [this]
  simp [resolveAlias, createAlias, List.find?_append, hnone,
    Ne.symm hne]

/-- After a creation, the owner holds exactly the one new alias. -/
theorem createAlias_single_active (db : Db) (u a : String) (t : Nat) :
    (createAlias db u a t).tempAliases.filter (fun r => r.userId == u)
      = [⟨a, u, t⟩] := by
  have hnil : (db.tempAliases.filter (fun r => r.userId != u)).filter
      (fun r => r.userId == u) = [] := by
    rw [List.filter_eq_nil_iff]
    intro r hr
    have := List.of_mem_filter hr
    simpa using this
  simp [createAlias, List.filter_append, hnil]

/-- C7: the replacement scenario — user u with no binding for a1 or a2
creates a1, mail to a1 is stored; creating a2 then retires a1: mail to a1
is permanently rejected, mail to a2 is stored, the mail already ingested
via a1 is still queryable, and u holds exactly one routing alias. -/
theorem alias_replacement (db0 : Db) (u a1 a2 : String) (t1 t2 : Nat)
    (m1 m2 m3 : InboundMsg) (cfg : RateCfg) (now1 now2 now3 : Nat)
    (hA1 : ∀ r ∈ db0.tempAliases, r.aliasAddr ≠ a1)
    (hA2 : ∀ r ∈ db0.tempAliases, r.aliasAddr ≠ a2)
    (hne : a1 ≠ a2)
    (hr1 : rateCheck (createAlias db0 u a1 t1) cfg now1 u = true)
    (hr3 : rateCheck
      (createAlias (deliver (createAlias db0 u a1 t1) cfg now1 a1 m1).1
        u a2 t2) cfg now3 u = true) :
    (deliver (createAlias db0 u a1 t1) cfg now1 a1 m1).2
      = DeliverOutcome.stored ∧
    deliver
      (createAlias (deliver (createAlias db0 u a1 t1) cfg now1 a1 m1).1
        u a2 t2) cfg now2 a1 m2
      = ((createAlias (deliver (createAlias db0 u a1 t1) cfg now1 a1 m1).1
          u a2 t2), DeliverOutcome.permanentFailure) ∧
    (deliver
      (createAlias (deliver (createAlias db0 u a1 t1) cfg now1 a1 m1).1
        u a2 t2) cfg now3 a2 m3).2 = DeliverOutcome.stored ∧
    listEmails
      (createAlias (deliver (createAlias db0 u a1 t1) cfg now1 a1 m1).1
        u a2 t2) u
      = listEmails (deliver (createAlias db0 u a1 t1) cfg now1 a1 m1).1 u ∧
    (createAlias (deliver (createAlias db0 u a1 t1) cfg now1 a1 m1).1
        u a2 t2).tempAliases.filter (fun r => r.userId == u)
      = [⟨a2, u, t2⟩] := by
  have hres1 : resolveAlias (createAlias db0 u a1 t1) a1 = some u :=
    resolveAlias_createAlias_self db0 u a1 t1 hA1
  have hstep1 : (deliver (createAlias db0 u a1 t1) cfg now1 a1 m1).2
      = DeliverOutcome.stored := by
    simp [deliver, hres1, hr1]
  have hdb2al :
      ((deliver (createAlias db0 u a1 t1) cfg now1 a1 m1).1).tempAliases
        = (createAlias db0 u a1 t1).tempAliases :=
    tempAliases_deliver _ _ _ _ _
  have hold : ∀ r ∈ ((deliver (createAlias db0 u a1 t1)
      cfg now1 a1 m1).1).tempAliases, r.userId ≠ u → r.aliasAddr ≠ a1 := by
    rw [hdb2al]
    intro r hr hu
    simp only [createAlias, List.mem_append, List.mem_filter,
      List.mem_singleton] at hr
    rcases hr with ⟨hr0, _⟩ | hr1x
    · exact hA1 r hr0
    · rw [hr1x] at hu
      simp at hu
  have hres2 : resolveAlias
      (createAlias (deliver (createAlias db0 u a1 t1) cfg now1 a1 m1).1
        u a2 t2) a1 = none :=
    resolveAlias_createAlias_old _ u a2 a1 t2 hne hold
  have hresA2 : ∀ r ∈ ((deliver (createAlias db0 u a1 t1)
      cfg now1 a1 m1).1).tempAliases, r.aliasAddr ≠ a2 := by
    rw [hdb2al]
    intro r hr
    simp only [createAlias, List.mem_append, List.mem_filter,
      List.mem_singleton] at hr
    rcases hr with ⟨hr0, _⟩ | hr1x
    · exact hA2 r hr0
    · rw [hr1x]
      simpa using hne
  have hres3 : resolveAlias
      (createAlias (deliver (createAlias db0 u a1 t1) cfg now1 a1 m1).1
        u a2 t2) a2 = some u :=
    resolveAlias_createAlias_self _ u a2 t2 hresA2
  refine ⟨hstep1, ?_, ?_, rfl, createAlias_single_active _ u a2 t2⟩
  · revert hres2
    generalize (createAlias
      (deliver (createAlias db0 u a1 t1) cfg now1 a1 m1).1 u a2 t2) = Y
    intro hres2
    simp [deliver, hres2]
  · revert hres3 hr3
    generalize (createAlias
      (deliver (createAlias db0 u a1 t1) cfg now1 a1 m1).1 u a2 t2) = Y
    intro hres3 hr3
    simp [deliver, hres3, hr3]

/-- A store where u1 owns alias a1 and two recent email rows, received at
90 and 95. -/
def dbRate : Db :=
  ⟨[uA], [⟨"a1", "u1", 5⟩],
    [⟨1, "u1", some "m1", "s", "s1", "p", 90⟩,
     ⟨2, "u1", some "m2", "s", "s2", "p", 95⟩]⟩

/-- C6: once the user has `limit` accepted messages inside the trailing
window, the next delivery attempt is denied with a temporary failure and
writes nothing; at a later time past the window the same address accepts
again; and the Sync Engine path performs its insert untouched by the
guard even while the user is over the ceiling. -/
theorem rate_guard_window (db : Db) (cfg : RateCfg) (now now2 : Nat)
    (rcpt uid : String) (m : InboundMsg) (s pw : String) (pt : Nat)
    (grant : Option RefreshGrant) (remote : List RemoteMsg)
    (hres : resolveAlias db rcpt = some uid)
    (hover : cfg.limit ≤ countRecent db.emails uid now cfg.windowLen)
    (hpos : 0 < cfg.limit)
    (hlater : ∀ r ∈ db.emails, r.userId = uid →
      r.receivedAt + cfg.windowLen ≤ now2) :
    deliver db cfg now rcpt m = (db, DeliverOutcome.temporaryFailure) ∧
    (deliver db cfg now2 rcpt m).2 = DeliverOutcome.stored ∧
    syncRun db (CredentialView.imap s pt pw) grant remote uid now =
      Except.ok
        ({ db with
            emails :=
              insertAll db.emails uid
                (fetchNewer remote (watermark db.emails uid now)) },
          CredentialView.imap s pt pw, 0) := by
  have hdeny : rateCheck db cfg now uid = false := by
    simp only [rateCheck, decide_eq_false_iff_not, Nat.not_lt]
    exact hover
  have hzero : countRecent db.emails uid now2 cfg.windowLen = 0 := by
    simp only [countRecent, List.length_eq_zero]
    rw [List.filter_eq_nil_iff]
    intro r hr
    by_cases hu : r.userId = uid
    · have := hlater r hr hu
      simp only [hu, beq_self_eq_true, Bool.true_and, Bool.and_eq_true,
        decide_eq_true_eq, not_and]
      omega
    · simp [hu]
  have hallow : rateCheck db cfg now2 uid = true := by
    simp [rateCheck, hzero, hpos]
  refine ⟨by simp [deliver, hres, hdeny], by simp [deliver, hres, hallow],
    rfl⟩

/-- C6 witness: with ceiling 2 and window 50, u1 already has rows at 90
and 95; at time 100 delivery to a1 is denied, at time 200 it is accepted,
and an IMAP sync runs unguarded. -/
theorem rate_guard_window_witness :
    deliver dbRate cfgA 100 "a1" msgA =
      (dbRate, DeliverOutcome.temporaryFailure) ∧
    (deliver dbRate cfgA 200 "a1" msgA).2 = DeliverOutcome.stored ∧
    syncRun dbRate (CredentialView.imap "imap.example.com" 993 "pw")
      none [] "u1" 100 =
      Except.ok
        ({ dbRate with
            emails :=
              insertAll dbRate.emails "u1"
                (fetchNewer [] (watermark dbRate.emails "u1" 100)) },
          CredentialView.imap "imap.example.com" 993 "pw", 0) :=
  rate_guard_window dbRate cfgA 100 200 "a1" "u1" msgA
    "imap.example.com" "pw" 993 none []
    (by decide) (by decide) (by decide) (by decide)

/-- C4: a sync against an OAuth credential whose expiry is in the past
performs exactly one refresh exchange, persists the granted access token
and expiry, and then fetches and inserts from the watermark. -/
theorem sync_refreshes_expired (db : Db) (p a r : String) (exp : Nat)
    (g : RefreshGrant) (remote : List RemoteMsg) (uid : String)
    (now : Nat) (hexp : exp ≤ now) :
    syncRun db (CredentialView.oauth p a r exp) (some g) remote uid now =
      Except.ok
        ({ db with
            emails :=
              insertAll db.emails uid
                (fetchNewer remote (watermark db.emails uid now)) },
          CredentialView.oauth p g.accessToken r g.expiresAt, 1) := by
  have h2 : exp ≤ now + refreshMargin :=
    Nat.le_trans hexp (Nat.le_add_right now refreshMargin)
  simp [syncRun, ensureFresh, h2]

/-- C4 witness: an OAuth credential expired at 50 is synced at 100 with a
grant of a new token expiring at 500; one refresh happens and the grant
is persisted. -/
theorem sync_refreshes_expired_witness :
    syncRun dbRate (CredentialView.oauth "google" "at" "rt" 50)
      (some ⟨"at2", 500⟩) [⟨"rm1", "s", "sub", "bd", 99⟩] "u1" 100 =
      Except.ok
        ({ dbRate with
            emails :=
              insertAll dbRate.emails "u1"
                (fetchNewer [⟨"rm1", "s", "sub", "bd", 99⟩]
                  (watermark dbRate.emails "u1" 100)) },
          CredentialView.oauth "google" "at2" "rt" 500, 1) :=
  sync_refreshes_expired dbRate "google" "at" "rt" 50 ⟨"at2", 500⟩
    [⟨"rm1", "s", "sub", "bd", 99⟩] "u1" 100 (by decide)

/-- C5: when the credential needs a refresh and the provider rejects the
exchange, the sync call reports CredentialExpired and the observable
store is exactly the one before the call — previously stored emails are
untouched. -/
theorem sync_refresh_failure_atomic (db : Db) (p a r : String) (exp : Nat)
    (remote : List RemoteMsg) (uid : String) (now : Nat)
    (hexp : exp ≤ now + refreshMargin) :
    syncRun db (CredentialView.oauth p a r exp) none remote uid now =
      Except.error SyncError.credentialExpired ∧
    dbAfterSync db (CredentialView.oauth p a r exp) none remote uid now
      = db := by
  have h1 : syncRun db (CredentialView.oauth p a r exp) none remote uid
      now = Except.error SyncError.credentialExpired := by
    simp [syncRun, ensureFresh, hexp]
  exact ⟨h1, by simp [dbAfterSync, h1]⟩

/-- C5 witness: a rejected refresh at time 100 aborts the sync with
CredentialExpired and leaves the two stored rows in place. -/
theorem sync_refresh_failure_atomic_witness :
    (syncRun dbRate (CredentialView.oauth "google" "at" "rt" 50)
        none [⟨"rm1", "s", "sub", "bd", 99⟩] "u1" 100 =
      Except.error SyncError.credentialExpired) ∧
    dbAfterSync dbRate (CredentialView.oauth "google" "at" "rt" 50)
      none [⟨"rm1", "s", "sub", "bd", 99⟩] "u1" 100 = dbRate :=
  sync_refresh_failure_atomic dbRate "google" "at" "rt" 50
    [⟨"rm1", "s", "sub", "bd", 99⟩] "u1" 100 (by decide)

/-- Intermediate stores of the C7 replacement scenario. -/
def db7a : Db := createAlias dbEmpty "u1" "a1" 5

/-- The store after delivering msgA to a1 at time 100. -/
def db7b : Db := (deliver db7a cfgA 100 "a1" msgA).1

/-- The store after replacing a1 with a2 at time 7. -/
def db7c : Db := createAlias db7b "u1" "a2" 7

/-- C7 witness: the concrete replacement scenario — a1 stores, then a2
supersedes it: a1 is permanently rejected, a2 stores, the old row stays
queryable and u1 routes through exactly one alias. -/
theorem alias_replacement_witness :
    (deliver db7a cfgA 100 "a1" msgA).2 = DeliverOutcome.stored ∧
    deliver db7c cfgA 110 "a1" msgA =
      (db7c, DeliverOutcome.permanentFailure) ∧
    (deliver db7c cfgA 120 "a2" msgA).2 = DeliverOutcome.stored ∧
    listEmails db7c "u1" = listEmails db7b "u1" ∧
    db7c.tempAliases.filter (fun r => r.userId == "u1")
      = [⟨"a2", "u1", 7⟩] :=
  alias_replacement dbEmpty "u1" "a1" "a2" 5 7 msgA msgA msgA cfgA
    100 110 120 (by decide) (by decide) (by decide) (by decide)
    (by decide)

/-- The accumulator of a left max-fold is a lower bound of the result. -/
theorem foldl_max_init_le (l : List Nat) (a : Nat) :
    a ≤ l.foldl max a := by
  induction l generalizing a with
  | nil => simp
  | cons b t ih =>
    simp only [List.foldl_cons]
    exact le_trans (le_max_left a b) (ih (max a b))

/-- Every member of a list bounds below its left max-fold. -/
theorem le_foldl_max (l : List Nat) (a x : Nat) (hx : x ∈ l) :
    x ≤ l.foldl max a := by
  induction l generalizing a with
  | nil => cases hx
  | cons b t ih =>
    simp only [List.foldl_cons]
    rcases List.mem_cons.mp hx with h | h
    · subst h
      exact le_trans (le_max_right a x) (foldl_max_init_le t _)
    · exact ih _ h

/-- C8: for a user with stored mail, the sync fetch is bounded by the
watermark — every stored row of the user sits at or below it and only
remote candidates strictly newer than it are fetched; the fetched batch
is inserted, and a candidate whose source identifier already exists for
the user is silently skipped by the insert. -/
theorem sync_watermark_fetch (db : Db) (uid : String) (now : Nat)
    (remote : List RemoteMsg) (s pw : String) (pt : Nat)
    (grant : Option RefreshGrant) (mdup : RemoteMsg) (k : Nat)
    (hmail : db.emails.filter (fun r => r.userId == uid) ≠ [])
    (hdup : ∃ r ∈ db.emails, r.userId = uid ∧
      r.messageId = some mdup.messageId) :
    db.emails.all (fun r => !(r.userId == uid) ||
      decide (r.receivedAt ≤ watermark db.emails uid now)) = true ∧
    (fetchNewer remote (watermark db.emails uid now)).all
      (fun m => decide (watermark db.emails uid now < m.receivedAt))
      = true ∧
    syncRun db (CredentialView.imap s pt pw) grant remote uid now =
      Except.ok
        ({ db with
            emails :=
              insertAll db.emails uid
                (fetchNewer remote (watermark db.emails uid now)) },
          CredentialView.imap s pt pw, 0) ∧
    insertEmail db.emails (normalizeRemote mdup uid k) = db.emails := by
  refine ⟨?_, ?_, rfl, ?_⟩
  · rw [List.all_eq_true]
    intro r hr
    by_cases hu : r.userId = uid
    · have hmem : r ∈ db.emails.filter (fun x => x.userId == uid) :=
        List.mem_filter.mpr ⟨hr, by simp [hu]⟩
      cases hf : db.emails.filter (fun x => x.userId == uid) with
      | nil => exact absurd hf hmail
      | cons y ys =>
        have hwm : watermark db.emails uid now =
            (y :: ys).foldl (fun acc x => max acc x.receivedAt) 0 := by
          simp [watermark, hf]
        rw [hf] at hmem
        have hle : r.receivedAt ≤
            (y :: ys).foldl (fun acc x => max acc x.receivedAt) 0 := by
          rw [← List.foldl_map (fun x : EmailRow => x.receivedAt) max]
          exact le_foldl_max _ 0 r.receivedAt
            (List.mem_map_of_mem (fun x : EmailRow => x.receivedAt) hmem)
        simp only [Bool.or_eq_true, Bool.not_eq_true', decide_eq_true_eq]
        right
        rw [hwm]
        exact hle
    · simp [hu]
  · rw [List.all_eq_true]
    intro m hm
    have := (List.mem_filter.mp hm).2
    simpa [fetchNewer] using this
  · obtain ⟨r, hr, hru, hrm⟩ := hdup
    have hc : emailsConflict db.emails (normalizeRemote mdup uid k)
        = true := by
      rw [emailsConflict, List.any_eq_true]
      exact ⟨r, hr, by simp [normalizeRemote, hru, hrm]⟩
    simp [insertEmail, hc]

/-- C8 witness: u1 has rows at 90 and 95, so the watermark is 95; a
remote listing with messages at 80, 95 and 99 fetches only the one at
99, and re-offering the already stored m1 is skipped by the insert. -/
theorem sync_watermark_fetch_witness :
    dbRate.emails.all (fun r => !(r.userId == "u1") ||
      decide (r.receivedAt ≤ watermark dbRate.emails "u1" 100)) = true ∧
    (fetchNewer
        [⟨"ra", "s", "sa", "ba", 80⟩, ⟨"rb", "s", "sb", "bb", 95⟩,
         ⟨"rc", "s", "sc", "bc", 99⟩]
        (watermark dbRate.emails "u1" 100)).all
      (fun m => decide (watermark dbRate.emails "u1" 100 < m.receivedAt))
      = true ∧
    syncRun dbRate (CredentialView.imap "imap.example.com" 993 "pw") none
      [⟨"ra", "s", "sa", "ba", 80⟩, ⟨"rb", "s", "sb", "bb", 95⟩,
       ⟨"rc", "s", "sc", "bc", 99⟩] "u1" 100 =
      Except.ok
        ({ dbRate with
            emails :=
              insertAll dbRate.emails "u1"
                (fetchNewer
                  [⟨"ra", "s", "sa", "ba", 80⟩, ⟨"rb", "s", "sb", "bb", 95⟩,
                   ⟨"rc", "s", "sc", "bc", 99⟩]
                  (watermark dbRate.emails "u1" 100)) },
          CredentialView.imap "imap.example.com" 993 "pw", 0) ∧
    insertEmail dbRate.emails
      (normalizeRemote ⟨"m1", "s", "sx", "bx", 97⟩ "u1" 3)
      = dbRate.emails :=
  sync_watermark_fetch dbRate "u1" 100
    [⟨"ra", "s", "sa", "ba", 80⟩, ⟨"rb", "s", "sb", "bb", 95⟩,
     ⟨"rc", "s", "sc", "bc", 99⟩]
    "imap.example.com" "pw" 993 none ⟨"m1", "s", "sx", "bx", 97⟩ 3
    (by decide)
    ⟨⟨1, "u1", some "m1", "s", "s1", "p", 90⟩, by decide, rfl, rfl⟩

/-- A call arriving at a busy slot changes nothing, however many times it
is repeated. -/
theorem arriveN_running (k : Nat) (e : Engine) (h : e.running = true) :
    arriveN k e = e := by
  induction k with
  | zero => rfl
  | succ k2 ih =>
    have ha : arrive e = e := by simp [arrive, h]
    simp [arriveN, ha, ih]

/-- C3: one caller takes the idle slot and any number k of calls arriving
while it is Running join the in-flight sync; when it completes, the
engine is in exactly the state a single sequential sync call produces —
the same final email store — and exactly one remote fetch was issued. -/
theorem concurrent_syncs_single_flight (db : Db) (cred : CredentialView)
    (grant : Option RefreshGrant) (remote : List RemoteMsg)
    (uid : String) (now : Nat) (k : Nat) :
    complete (arriveN k (arrive ⟨db, false, 0⟩)) cred grant remote uid now
      = complete (arrive ⟨db, false, 0⟩) cred grant remote uid now ∧
    (complete (arrive ⟨db, false, 0⟩) cred grant remote uid now).db
      = dbAfterSync db cred grant remote uid now ∧
    (complete (arrive ⟨db, false, 0⟩) cred grant remote uid now).fetches
      = 1 := by
  have h1 : arrive (⟨db, false, 0⟩ : Engine) = ⟨db, true, 0⟩ := by
    simp [arrive]
  rw [h1, arriveN_running k ⟨db, true, 0⟩ rfl]
  exact ⟨rfl, by simp [complete], by simp [complete]⟩

end MailServer
